import Mathlib

/-!
Shallow embedding of the on-call scheduling engine of
`streamlit_guard_scheduler.py` (class `SmartScheduler`), together with proofs
of the specified properties.

Modelling conventions:
* A calendar date is its proleptic-Gregorian ordinal (as in Python's
  `date.toordinal()`: 0001-01-01 ↦ 1).  `wd` is Python's `date.weekday()`
  (Monday = 0); `monthKey` is `(date.year, date.month)` recovered from the
  ordinal by the same 400/100/4/1-year decomposition CPython uses.
* Python floats are modelled as rationals (ℚ).
* The `random` module is modelled as an explicitly threaded generator state
  (a 64-bit linear congruential generator).  `random.uniform(-5, 5)` becomes
  `jitterVal`, which lands in [-5, 5] by construction, and `random.choice`
  becomes indexing by the next draw modulo the list length.  Draws are
  consumed in the same order as in the source (the scorer's early returns
  happen before its `random.uniform` call, so ineligible doctors consume no
  randomness).
* `defaultdict` counters become total functions with the same defaults
  (`last_shift_date` defaults to `date.min`, ordinal 1), except the nested
  `shift_counts` dict, which must support `sum(... .values())` and is
  therefore an association list keyed by `(doctor, (year, month))`.  (A
  Python `defaultdict` read materialises a zero entry; zero entries change
  neither lookups nor sums, so the pure lookup is observationally equal.)
* Streamlit calls (`st.progress`, `st.warning`) have no effect on the
  computed schedule; warnings are recorded as `(date, shift_name)` pairs in
  the run's output.
-/

/-- Python `date.weekday()` on an ordinal: ordinal 1 (0001-01-01) is a
Monday (0); Saturday = 5, Sunday = 6. -/
def wd (o : Nat) : Nat := (o + 6) % 7

/-- Gregorian leap-year rule. -/
def isLeap (y : Nat) : Bool := (y % 4 == 0 && y % 100 != 0) || y % 400 == 0

/-- Month lengths of year `y`, January first. -/
def monthLengths (y : Nat) : List Nat :=
  [31, if isLeap y then 29 else 28, 31, 30, 31, 30, 31, 31, 30, 31, 30, 31]

/-- Walk the month-length table: from a 0-based day of year, produce the
1-based `(month, day)` pair. -/
def findMonth : Nat → Nat → List Nat → Nat × Nat
  | m, d, [] => (m, d + 1)
  | m, d, len :: rest => if d < len then (m, d + 1) else findMonth (m + 1) (d - len) rest

/-- Ordinal to `(year, month, day)`, the decomposition CPython's
`datetime` uses (146097-day 400-year cycles, then centuries, then 4-year
cycles, then years). -/
def ordToYMD (o : Nat) : Nat × Nat × Nat :=
  let n := o - 1
  let n400 := n / 146097
  let r1 := n % 146097
  let n100 := r1 / 36524
  let r2 := r1 % 36524
  let n4 := r2 / 1461
  let r3 := r2 % 1461
  let n1 := r3 / 365
  let r4 := r3 % 365
  let year := 400 * n400 + 100 * n100 + 4 * n4 + n1 + 1
  if n1 = 4 ∨ n100 = 4 then (year - 1, 12, 31)
  else
    let md := findMonth 1 r4 (monthLengths year)
    (year, md.1, md.2)

/-- `month_key = (date.year, date.month)` as used by the scheduler. -/
def monthKey (o : Nat) : Nat × Nat := ((ordToYMD o).1, (ordToYMD o).2.1)

/-- One step of the explicit pseudo-random generator threading Python's
`random` module state. -/
def lcg (g : Nat) : Nat :=
  (6364136223846793005 * g + 1442695040888963407) % 18446744073709551616

/-- The value `random.uniform(-5, 5)` drawn at generator state `g`:
`lcg g % 10001` is in `[0, 10000]`, so the result is in `[-5, 5]`. -/
def jitterVal (g : Nat) : ℚ := ((lcg g % 10001 : Nat) : ℚ) / 1000 - 5

/-- Python's substring test (`p in s`) on character lists: prefix check. -/
def hasLead : List Char → List Char → Bool
  | [], _ => true
  | _ :: _, [] => false
  | a :: as, b :: bs => a == b && hasLead as bs

/-- Python's substring test (`p in s`) on character lists. -/
def hasSub : List Char → List Char → Bool
  | p, [] => p.isEmpty
  | p, c :: rest => hasLead p (c :: rest) || hasSub p rest

/-- Python's `p in s` for strings (substring containment). -/
def substrOf (p s : String) : Bool := hasSub p.toList s.toList

/-- A row of the cleaned `Doctors` table: `id`, `name`,
`max_shifts_per_month`. -/
structure Doctor where
  id : Nat
  name : String
  maxShifts : Nat
deriving DecidableEq, Repr

/-- A row of the cleaned `Preferences` table: `doctor_id`,
`preferred_day` (an `int`, possibly `-1` after cleaning), `preferred_shift`. -/
structure Pref where
  doc : Nat
  day : Int
  shift : String
deriving DecidableEq, Repr

/-- One output row of the generated schedule: `(date, shift_name, doctor_id)`. -/
structure Entry where
  date : Nat
  shift : String
  doc : Nat
deriving DecidableEq, Repr

/-- The mutable state of a `SmartScheduler` instance. -/
structure Scheduler where
  doctor_ids : List Nat
  id_to_name : Nat → String
  monthly_limits : Nat → Nat
  unavail_set : List (Nat × Nat)
  doc_preferences : Nat → List Pref
  shift_counts : List ((Nat × (Nat × Nat)) × Nat)
  last_shift_date : Nat → Nat
  weekend_counts : Nat → Nat

/-- Lookup in the `shift_counts` association list (defaultdict default 0). -/
def getCount : List ((Nat × (Nat × Nat)) × Nat) → Nat × (Nat × Nat) → Nat
  | [], _ => 0
  | (k, v) :: rest, key => if key = k then v else getCount rest key

/-- `self.shift_counts[doc][mk] += 1`. -/
def bump : List ((Nat × (Nat × Nat)) × Nat) → Nat × (Nat × Nat) → List ((Nat × (Nat × Nat)) × Nat)
  | [], key => [(key, 1)]
  | (k, v) :: rest, key => if key = k then (k, v + 1) :: rest else (k, v) :: bump rest key

/-- `sum(self.shift_counts[doc].values())`: total shifts assigned so far. -/
def totalShifts (l : List ((Nat × (Nat × Nat)) × Nat)) (doc : Nat) : Nat :=
  (l.filter (fun e => e.1.1 == doc)).foldl (fun a e => a + e.2) 0

/-- `SmartScheduler.__init__`: builds the lookup structures from the three
cleaned input tables (doctors, unavailability pairs, preferences).  Python
`dict(zip(..))` keeps the last duplicate, hence the reversed search. -/
def mkScheduler (doctors : List Doctor) (unavail : List (Nat × Nat)) (prefs : List Pref) :
    Scheduler where
  doctor_ids := doctors.map (·.id)
  id_to_name := fun d => (((doctors.reverse).find? (fun x => x.id == d)).map (·.name)).getD ""
  monthly_limits := fun d =>
    (((doctors.reverse).find? (fun x => x.id == d)).map (·.maxShifts)).getD 0
  unavail_set := unavail
  doc_preferences := fun d => prefs.filter (fun p => p.doc == d)
  shift_counts := []
  last_shift_date := fun _ => 1
  weekend_counts := fun _ => 0

/-- `SmartScheduler.calculate_doctor_score`.  Returns the score together with
the generator state after the call (the early returns for an unavailable or
over-cap doctor happen before `random.uniform` and consume no randomness). -/
def calculate_doctor_score (s : Scheduler) (doc : Nat) (date : Nat) (shift_name : String)
    (g : Nat) : ℚ × Nat :=
  if (doc, date) ∈ s.unavail_set then (-1000, g)
  else if s.monthly_limits doc ≤ getCount s.shift_counts (doc, monthKey date) then (-500, g)
  else
    let score0 : ℚ := 0 + 100 / ((totalShifts s.shift_counts doc : ℚ) + 1)
    let days_since_last : Int := (date : Int) - (s.last_shift_date doc : Int)
    let score1 : ℚ :=
      if days_since_last < 2 then score0 - 50
      else if 7 < days_since_last then score0 + 20
      else score0
    let weekday := wd date
    let score2 : ℚ := (s.doc_preferences doc).foldl
      (fun sc p => if p.day == (weekday : Int) && substrOf p.shift shift_name then sc + 30 else sc)
      score1
    let score3 : ℚ := if 5 ≤ weekday then score2 - (s.weekend_counts doc : ℚ) * 10 else score2
    (score3 + jitterVal g, lcg g)

/-- The result of (part of) one run: final scheduler state, final generator
state, schedule rows, and the forced-assignment warnings `(date, shift)`. -/
structure StepOut where
  s : Scheduler
  g : Nat
  rows : List Entry
  warns : List (Nat × String)

/-- The counter updates performed after a slot's doctor is selected
(both in the normal and in the forced branch):
`shift_counts[sel][month_key] += 1`, `last_shift_date[sel] = date`, and
`weekend_counts[sel] += 1` when the date falls on a weekend. -/
def updState (s : Scheduler) (sel : Nat) (date : Nat) : Scheduler :=
  { s with
    shift_counts := bump s.shift_counts (sel, monthKey date)
    last_shift_date := fun d => if d = sel then date else s.last_shift_date d
    weekend_counts := fun d =>
      if d = sel ∧ 5 ≤ wd date then s.weekend_counts d + 1 else s.weekend_counts d }

/-- Score every doctor of `ids` for the slot, threading the generator state
in roster order (as the list comprehension in `generate` does). -/
def scoresFor (s : Scheduler) : List Nat → Nat → String → Nat → List (Nat × ℚ) × Nat
  | [], _, _, g => ([], g)
  | d :: rest, date, shift_name, g =>
    let r := calculate_doctor_score s d date shift_name g
    let tl := scoresFor s rest date shift_name r.2
    ((d, r.1) :: tl.1, tl.2)

/-- First maximal-score pair of `b :: l`, i.e. the head of the stable
descending sort `available.sort(key=score, reverse=True)`. -/
def pickBest : Nat × ℚ → List (Nat × ℚ) → Nat × ℚ
  | b, [] => b
  | b, p :: rest => pickBest (if b.2 < p.2 then p else b) rest

/-- The body of the inner `for shift_name in shifts` loop of
`SmartScheduler.generate`: score all doctors, filter the available ones
(`score > -100`), pick the best scorer — or, if nobody is available, warn and
pick a random doctor — then update the counters and emit the schedule row. -/
def processSlot (s : Scheduler) (g : Nat) (date : Nat) (shift_name : String) : StepOut :=
  let sc := scoresFor s s.doctor_ids date shift_name g
  match sc.1.filter (fun p => (-100 : ℚ) < p.2) with
  | [] =>
    let sel := s.doctor_ids.getD (lcg sc.2 % s.doctor_ids.length) 0
    ⟨updState s sel date, lcg sc.2, [⟨date, shift_name, sel⟩], [(date, shift_name)]⟩
  | a :: rest =>
    let sel := (pickBest a rest).1
    ⟨updState s sel date, sc.2, [⟨date, shift_name, sel⟩], []⟩

/-- Process every shift label of one date, in template order. -/
def processDay (s : Scheduler) (g : Nat) : List String → Nat → StepOut
  | [], _ => ⟨s, g, [], []⟩
  | sh :: rest, date =>
    let o1 := processSlot s g date sh
    let o2 := processDay o1.s o1.g rest date
    ⟨o2.s, o2.g, o1.rows ++ o2.rows, o1.warns ++ o2.warns⟩

/-- The `while current_date <= end_date` loop, expressed with the explicit
iteration count `fuel = end - start + 1`. -/
def genDays (s : Scheduler) (g : Nat) (shifts : List String) : Nat → Nat → StepOut
  | _, 0 => ⟨s, g, [], []⟩
  | current, fuel + 1 =>
    let o1 := processDay s g shifts current
    let o2 := genDays o1.s o1.g shifts (current + 1) fuel
    ⟨o2.s, o2.g, o1.rows ++ o2.rows, o1.warns ++ o2.warns⟩

/-- The `SHIFT_TYPES` dictionary, with `generate`'s fallback
`[f"Tură {i+1}" for i in range(shifts_per_day)]` for keys other than 1, 2. -/
def SHIFT_TYPES (shifts_per_day : Nat) : List String :=
  match shifts_per_day with
  | 1 => ["Gardă 24h"]
  | 2 => ["Gardă Zi 12h (08-20)", "Gardă Noapte 12h (20-08)"]
  | n => (List.range n).map (fun i => "Tură " ++ toString (i + 1))

/-- `SmartScheduler.generate`: raises (`Except.error`) on an empty roster
before any slot is processed; otherwise walks every date of
`[start_date, end_date]` and every shift label of the template. -/
def generate (s : Scheduler) (start_date end_date : Nat) (shifts_per_day : Nat) (g : Nat) :
    Except String StepOut :=
  if s.doctor_ids = [] then .error "❌ Nu există medici înregistrați!"
  else .ok (genDays s g (SHIFT_TYPES shifts_per_day) start_date (end_date + 1 - start_date))

/-- Projection of a run result; the error branch yields an empty run. -/
def genOut : Except String StepOut → StepOut
  | .ok o => o
  | .error _ => ⟨mkScheduler [] [] [], 0, [], []⟩

/-! ### Basic lemmas about the embedded primitives -/

theorem jitterVal_le (g : Nat) : jitterVal g ≤ 5 := by
  have h : lcg g % 10001 < 10001 := Nat.mod_lt _ (by norm_num)
  have h' : ((lcg g % 10001 : Nat) : ℚ) ≤ 10000 := by exact_mod_cast Nat.lt_succ_iff.mp h
  unfold jitterVal
  linarith

theorem jitterVal_ge (g : Nat) : -5 ≤ jitterVal g := by
  have h' : (0 : ℚ) ≤ ((lcg g % 10001 : Nat) : ℚ) := by positivity
  unfold jitterVal
  linarith

theorem getCount_bump (l : List ((Nat × (Nat × Nat)) × Nat)) (k k' : Nat × (Nat × Nat)) :
    getCount (bump l k) k' = if k' = k then getCount l k + 1 else getCount l k' := by
  induction l with
  | nil => by_cases h : k' = k <;> simp [bump, getCount, h]
  | cons e rest ih =>
    obtain ⟨k0, v⟩ := e
    by_cases h1 : k = k0
    · subst h1
      by_cases h2 : k' = k <;> simp [bump, getCount, h2]
    · by_cases h2 : k' = k0
      · subst h2
        simp [bump, getCount, h1, Ne.symm h1, ih]
      · simp [bump, getCount, h1, h2, ih]

theorem getD_mem (l : List Nat) (n d : Nat) (h : n < l.length) : l.getD n d ∈ l := by
  induction l generalizing n with
  | nil => simp at h
  | cons x xs ih =>
    cases n with
    | zero => simp [List.getD]
    | succ m =>
      have hm : m < xs.length := by simpa using h
      simpa [List.getD] using Or.inr (by simpa [List.getD] using ih m hm)

theorem pickBest_mem (a : Nat × ℚ) (l : List (Nat × ℚ)) : pickBest a l ∈ a :: l := by
  induction l generalizing a with
  | nil => simp [pickBest]
  | cons p rest ih =>
    simp only [pickBest]
    have h := ih (if a.2 < p.2 then p else a)
    rcases List.mem_cons.mp h with h' | h'
    · rw [h']
      by_cases hc : a.2 < p.2 <;> simp [hc]
    · exact List.mem_cons.mpr (Or.inr (List.mem_cons.mpr (Or.inr h')))

theorem scoresFor_mem (s : Scheduler) (ids : List Nat) (date : Nat) (sh : String) (g : Nat)
    (p : Nat × ℚ) (hp : p ∈ (scoresFor s ids date sh g).1) :
    p.1 ∈ ids ∧ ∃ g0, p.2 = (calculate_doctor_score s p.1 date sh g0).1 := by
  induction ids generalizing g with
  | nil => simp [scoresFor] at hp
  | cons d rest ih =>
    simp only [scoresFor, List.mem_cons] at hp
    rcases hp with h | h
    · subst h
      exact ⟨List.mem_cons_self _ _, g, rfl⟩
    · obtain ⟨h1, h2⟩ := ih _ h
      exact ⟨List.mem_cons_of_mem _ h1, h2⟩

theorem score_gt_neg100 (s : Scheduler) (doc date : Nat) (sh : String) (g : Nat)
    (h : (-100 : ℚ) < (calculate_doctor_score s doc date sh g).1) :
    (doc, date) ∉ s.unavail_set ∧
      getCount s.shift_counts (doc, monthKey date) < s.monthly_limits doc := by
  by_cases h1 : (doc, date) ∈ s.unavail_set
  · simp [calculate_doctor_score, h1] at h
    norm_num at h
  · by_cases h2 : s.monthly_limits doc ≤ getCount s.shift_counts (doc, monthKey date)
    · simp [calculate_doctor_score, h1, h2] at h
      norm_num at h
    · exact ⟨h1, lt_of_not_le h2⟩

/-! ### Case analyses of `processSlot` -/

/-- Forced branch: nobody scored above -100. -/
theorem processSlot_forced (s : Scheduler) (g date : Nat) (sh : String)
    (h : (scoresFor s s.doctor_ids date sh g).1.filter (fun p => (-100 : ℚ) < p.2) = []) :
    processSlot s g date sh =
      ⟨updState s (s.doctor_ids.getD
          (lcg (scoresFor s s.doctor_ids date sh g).2 % s.doctor_ids.length) 0) date,
        lcg (scoresFor s s.doctor_ids date sh g).2,
        [⟨date, sh, s.doctor_ids.getD
          (lcg (scoresFor s s.doctor_ids date sh g).2 % s.doctor_ids.length) 0⟩],
        [(date, sh)]⟩ := by
  simp only [processSlot]
  rw [h]

/-- Normal branch: at least one doctor scored above -100; the first
maximal-score one is picked. -/
theorem processSlot_normal (s : Scheduler) (g date : Nat) (sh : String)
    (a : Nat × ℚ) (rest : List (Nat × ℚ))
    (h : (scoresFor s s.doctor_ids date sh g).1.filter (fun p => (-100 : ℚ) < p.2) = a :: rest) :
    processSlot s g date sh =
      ⟨updState s (pickBest a rest).1 date,
        (scoresFor s s.doctor_ids date sh g).2,
        [⟨date, sh, (pickBest a rest).1⟩], []⟩ := by
  simp only [processSlot]
  rw [h]

/-- In the normal branch, the selected doctor is a roster member whose
score exceeded -100, hence was available and below cap at selection time. -/
theorem selected_ok (s : Scheduler) (g date : Nat) (sh : String)
    (a : Nat × ℚ) (rest : List (Nat × ℚ))
    (h : (scoresFor s s.doctor_ids date sh g).1.filter (fun p => (-100 : ℚ) < p.2) = a :: rest) :
    (pickBest a rest).1 ∈ s.doctor_ids ∧
      ((pickBest a rest).1, date) ∉ s.unavail_set ∧
      getCount s.shift_counts ((pickBest a rest).1, monthKey date)
        < s.monthly_limits (pickBest a rest).1 := by
  have hmem : pickBest a rest ∈ a :: rest := pickBest_mem a rest
  rw [← h] at hmem
  have hf := List.mem_filter.mp hmem
  obtain ⟨hin, hgt⟩ := hf
  have hgt' : (-100 : ℚ) < (pickBest a rest).2 := by exact_mod_cast of_decide_eq_true hgt
  obtain ⟨hid, g0, hsc⟩ := scoresFor_mem s s.doctor_ids date sh g _ hin
  rw [hsc] at hgt'
  obtain ⟨h1, h2⟩ := score_gt_neg100 s _ date sh g0 hgt'
  exact ⟨hid, h1, h2⟩

/-- `processSlot` only touches the running counters: the fields initialised
in `__init__` and never reassigned are preserved. -/
theorem processSlot_static (s : Scheduler) (g date : Nat) (sh : String) :
    (processSlot s g date sh).s.doctor_ids = s.doctor_ids ∧
    (processSlot s g date sh).s.monthly_limits = s.monthly_limits ∧
    (processSlot s g date sh).s.unavail_set = s.unavail_set ∧
    (processSlot s g date sh).s.doc_preferences = s.doc_preferences := by
  simp only [processSlot]
  cases hc : (scoresFor s s.doctor_ids date sh g).1.filter (fun p => (-100 : ℚ) < p.2) <;>
    exact ⟨rfl, rfl, rfl, rfl⟩

/-- The single schedule row a slot emits carries the slot's date and label. -/
theorem processSlot_rows (s : Scheduler) (g date : Nat) (sh : String) :
    ∃ sel, (processSlot s g date sh).rows = [⟨date, sh, sel⟩] := by
  simp only [processSlot]
  cases hc : (scoresFor s s.doctor_ids date sh g).1.filter (fun p => (-100 : ℚ) < p.2) <;>
    exact ⟨_, rfl⟩

/-! ### Shape of the emitted schedule -/

/-- The `(date, shift)` slots of one run, in generation order. -/
def slotList : Nat → Nat → List String → List (Nat × String)
  | _, 0, _ => []
  | c, fuel + 1, shifts => shifts.map (fun sh => (c, sh)) ++ slotList (c + 1) fuel shifts

theorem processDay_rows_map (s : Scheduler) (g : Nat) (shifts : List String) (d : Nat) :
    (processDay s g shifts d).rows.map (fun e => (e.date, e.shift))
      = shifts.map (fun sh => (d, sh)) := by
  induction shifts generalizing s g with
  | nil => rfl
  | cons sh rest ih =>
    obtain ⟨sel, hrows⟩ := processSlot_rows s g d sh
    simp only [processDay, List.map_append, List.map_cons, hrows, ih]
    rfl

theorem genDays_rows_map (shifts : List String) (fuel : Nat) :
    ∀ (s : Scheduler) (g c : Nat),
    (genDays s g shifts c fuel).rows.map (fun e => (e.date, e.shift)) = slotList c fuel shifts := by
  induction fuel with
  | zero => intro s g c; rfl
  | succ n ih =>
    intro s g c
    simp only [genDays, slotList, List.map_append, processDay_rows_map, ih]

theorem slotList_length (shifts : List String) (fuel : Nat) :
    ∀ c, (slotList c fuel shifts).length = fuel * shifts.length := by
  induction fuel with
  | zero => intro c; simp [slotList]
  | succ n ih =>
    intro c
    simp only [slotList, List.length_append, List.length_map, ih, Nat.succ_mul]
    omega

theorem slotList_eq_flatMap (shifts : List String) (fuel : Nat) :
    ∀ c, slotList c fuel shifts
      = (List.range fuel).flatMap (fun i => shifts.map (fun sh => (c + i, sh))) := by
  induction fuel with
  | zero => intro c; rfl
  | succ n ih =>
    intro c
    rw [List.range_succ_eq_map]
    simp only [slotList, List.flatMap_cons, Nat.add_zero, List.flatMap_map, ih (c + 1)]
    congr 1
    have hfun : (fun i => List.map (fun sh => (c + 1 + i, sh)) shifts)
        = (fun a => List.map (fun sh => (c + (a + 1), sh)) shifts) := by
      funext i
      have hci : c + 1 + i = c + (i + 1) := by omega
      rw [hci]
    rw [hfun]

/-- C1: for every run with a non-empty staff roster and start ≤ end,
`generate` succeeds and returns exactly
`(days in [start, end]) × (shift-labels in the template)` entries, in
generation order: date-major, and within each date in the template's
shift-label order. -/
theorem claim1_output_count_and_order (s : Scheduler) (start_date end_date spd g : Nat)
    (hroster : s.doctor_ids ≠ []) (_hrange : start_date ≤ end_date) :
    (generate s start_date end_date spd g).isOk = true ∧
    (genOut (generate s start_date end_date spd g)).rows.length
      = (end_date + 1 - start_date) * (SHIFT_TYPES spd).length ∧
    (genOut (generate s start_date end_date spd g)).rows.map (fun e => (e.date, e.shift))
      = (List.range (end_date + 1 - start_date)).flatMap
          (fun i => (SHIFT_TYPES spd).map (fun sh => (start_date + i, sh))) := by
  have hgen : generate s start_date end_date spd g
      = .ok (genDays s g (SHIFT_TYPES spd) start_date (end_date + 1 - start_date)) := by
    simp [generate, hroster]
  rw [hgen]
  refine ⟨rfl, ?_, ?_⟩
  · have hmap := congrArg List.length
      (genDays_rows_map (SHIFT_TYPES spd) (end_date + 1 - start_date) s g start_date)
    simpa [slotList_length] using hmap
  · show (genDays s g (SHIFT_TYPES spd) start_date (end_date + 1 - start_date)).rows.map
        (fun e => (e.date, e.shift)) = _
    rw [genDays_rows_map, slotList_eq_flatMap]

/-- Witness for C1 at a concrete run: one doctor, two days, the two-shift
template. -/
theorem claim1_witness :
    ((mkScheduler [⟨1, "Ana", 10⟩] [] []).doctor_ids ≠ [] ∧ (6 : Nat) ≤ 7) ∧
    ((generate (mkScheduler [⟨1, "Ana", 10⟩] [] []) 6 7 2 0).isOk = true ∧
      (genOut (generate (mkScheduler [⟨1, "Ana", 10⟩] [] []) 6 7 2 0)).rows.length
        = (7 + 1 - 6) * (SHIFT_TYPES 2).length ∧
      (genOut (generate (mkScheduler [⟨1, "Ana", 10⟩] [] []) 6 7 2 0)).rows.map
          (fun e => (e.date, e.shift))
        = (List.range (7 + 1 - 6)).flatMap
            (fun i => (SHIFT_TYPES 2).map (fun sh => (6 + i, sh)))) :=
  ⟨⟨by decide, by decide⟩,
    claim1_output_count_and_order (mkScheduler [⟨1, "Ana", 10⟩] [] []) 6 7 2 0
      (by decide) (by decide)⟩

/-- C3: `generate` aborts with the validation error exactly when the roster
is empty — the check happens before any slot is processed, so the error
branch performs no assignment and no counter update (it returns
immediately) — and with a non-empty roster every run succeeds (every
degenerate slot degrades to a forced assignment instead of an error). -/
theorem claim3_empty_roster_abort (s : Scheduler) (start_date end_date spd g : Nat) :
    (s.doctor_ids = [] →
      generate s start_date end_date spd g = .error "❌ Nu există medici înregistrați!") ∧
    (s.doctor_ids ≠ [] → (generate s start_date end_date spd g).isOk = true) := by
  constructor
  · intro h
    simp [generate, h]
  · intro h
    have hgen : generate s start_date end_date spd g
        = .ok (genDays s g (SHIFT_TYPES spd) start_date (end_date + 1 - start_date)) := by
      simp [generate, h]
    rw [hgen]
    rfl

/-- Witness for C3: the empty roster errors; a roster whose only doctor is
always absent still succeeds (forced assignments, no abort). -/
theorem claim3_witness :
    generate (mkScheduler [] [] []) 3 4 1 0 = .error "❌ Nu există medici înregistrați!" ∧
    (generate (mkScheduler [⟨1, "Ana", 10⟩] [(1, 3), (1, 4)] []) 3 4 1 0).isOk = true :=
  ⟨(claim3_empty_roster_abort (mkScheduler [] [] []) 3 4 1 0).1 rfl,
    (claim3_empty_roster_abort (mkScheduler [⟨1, "Ana", 10⟩] [(1, 3), (1, 4)] []) 3 4 1 0).2
      (by decide)⟩

/-! ### The monthly-cap invariant -/

/-- The cap invariant: every (doctor, month) counter is within the doctor's
monthly cap, except where a forced-assignment warning was recorded for a slot
of that month that was assigned to that doctor. -/
def CapInv (s : Scheduler) (rows : List Entry) (warns : List (Nat × String)) : Prop :=
  ∀ doc mk, getCount s.shift_counts (doc, mk) ≤ s.monthly_limits doc ∨
    ∃ d sh, (d, sh) ∈ warns ∧ monthKey d = mk ∧ (⟨d, sh, doc⟩ : Entry) ∈ rows

theorem capInv_updState_of_lt (s : Scheduler) (R : List Entry) (W : List (Nat × String))
    (h : CapInv s R W) (sel date : Nat)
    (hok : getCount s.shift_counts (sel, monthKey date) < s.monthly_limits sel)
    (rows' : List Entry) (warns' : List (Nat × String)) :
    CapInv (updState s sel date) (R ++ rows') (W ++ warns') := by
  intro doc mk
  by_cases hk : ((doc, mk) : Nat × (Nat × Nat)) = (sel, monthKey date)
  · left
    show getCount (bump s.shift_counts (sel, monthKey date)) (doc, mk)
      ≤ s.monthly_limits doc
    rw [getCount_bump, if_pos hk]
    have hdoc : doc = sel := congrArg Prod.fst hk
    subst hdoc
    omega
  · rcases h doc mk with hle | ⟨d0, sh0, hw, hmk, hr⟩
    · left
      show getCount (bump s.shift_counts (sel, monthKey date)) (doc, mk)
        ≤ s.monthly_limits doc
      rw [getCount_bump, if_neg hk]
      exact hle
    · exact Or.inr ⟨d0, sh0, List.mem_append_left _ hw, hmk, List.mem_append_left _ hr⟩

theorem capInv_updState_forced (s : Scheduler) (R : List Entry) (W : List (Nat × String))
    (h : CapInv s R W) (sel date : Nat) (sh : String) :
    CapInv (updState s sel date) (R ++ [⟨date, sh, sel⟩]) (W ++ [(date, sh)]) := by
  intro doc mk
  by_cases hk : ((doc, mk) : Nat × (Nat × Nat)) = (sel, monthKey date)
  · have hdoc : doc = sel := congrArg Prod.fst hk
    have hmk : mk = monthKey date := congrArg Prod.snd hk
    refine Or.inr ⟨date, sh, List.mem_append_right _ (List.mem_singleton.mpr rfl),
      hmk.symm, List.mem_append_right _ ?_⟩
    rw [hdoc]
    exact List.mem_singleton.mpr rfl
  · rcases h doc mk with hle | ⟨d0, sh0, hw, hmk, hr⟩
    · left
      show getCount (bump s.shift_counts (sel, monthKey date)) (doc, mk)
        ≤ s.monthly_limits doc
      rw [getCount_bump, if_neg hk]
      exact hle
    · exact Or.inr ⟨d0, sh0, List.mem_append_left _ hw, hmk, List.mem_append_left _ hr⟩

theorem processSlot_capInv (s : Scheduler) (g date : Nat) (sh : String)
    (R : List Entry) (W : List (Nat × String)) (h : CapInv s R W) :
    CapInv (processSlot s g date sh).s (R ++ (processSlot s g date sh).rows)
      (W ++ (processSlot s g date sh).warns) := by
  cases hc : (scoresFor s s.doctor_ids date sh g).1.filter (fun p => (-100 : ℚ) < p.2) with
  | nil =>
    rw [processSlot_forced s g date sh hc]
    exact capInv_updState_forced s R W h _ date sh
  | cons a rest =>
    rw [processSlot_normal s g date sh a rest hc]
    exact capInv_updState_of_lt s R W h _ date (selected_ok s g date sh a rest hc).2.2 _ _

theorem processDay_capInv (shifts : List String) :
    ∀ (s : Scheduler) (g d : Nat) (R : List Entry) (W : List (Nat × String)),
    CapInv s R W →
    CapInv (processDay s g shifts d).s (R ++ (processDay s g shifts d).rows)
      (W ++ (processDay s g shifts d).warns) := by
  induction shifts with
  | nil =>
    intro s g d R W h
    simpa [processDay] using h
  | cons sh rest ih =>
    intro s g d R W h
    have h1 := processSlot_capInv s g d sh R W h
    have h2 := ih (processSlot s g d sh).s (processSlot s g d sh).g d _ _ h1
    simpa [processDay, List.append_assoc] using h2

theorem genDays_capInv (shifts : List String) (fuel : Nat) :
    ∀ (s : Scheduler) (g c : Nat) (R : List Entry) (W : List (Nat × String)),
    CapInv s R W →
    CapInv (genDays s g shifts c fuel).s (R ++ (genDays s g shifts c fuel).rows)
      (W ++ (genDays s g shifts c fuel).warns) := by
  induction fuel with
  | zero =>
    intro s g c R W h
    simpa [genDays] using h
  | succ n ih =>
    intro s g c R W h
    have h1 := processDay_capInv shifts s g c R W h
    have h2 := ih (processDay s g shifts c).s (processDay s g shifts c).g (c + 1) _ _ h1
    simpa [genDays, List.append_assoc] using h2

theorem processDay_limits (shifts : List String) :
    ∀ (s : Scheduler) (g d : Nat),
    (processDay s g shifts d).s.monthly_limits = s.monthly_limits := by
  induction shifts with
  | nil => intro s g d; rfl
  | cons sh rest ih =>
    intro s g d
    show (processDay (processSlot s g d sh).s (processSlot s g d sh).g rest d).s.monthly_limits
      = s.monthly_limits
    rw [ih, (processSlot_static s g d sh).2.1]

theorem genDays_limits (shifts : List String) (fuel : Nat) :
    ∀ (s : Scheduler) (g c : Nat),
    (genDays s g shifts c fuel).s.monthly_limits = s.monthly_limits := by
  induction fuel with
  | zero => intro s g c; rfl
  | succ n ih =>
    intro s g c
    show (genDays (processDay s g shifts c).s (processDay s g shifts c).g shifts (c + 1) n).s.monthly_limits
      = s.monthly_limits
    rw [ih, processDay_limits]

theorem mkScheduler_capInv (doctors : List Doctor) (unavail : List (Nat × Nat))
    (prefs : List Pref) : CapInv (mkScheduler doctors unavail prefs) [] [] := by
  intro doc mk
  exact Or.inl (Nat.zero_le _)

/-- C2: after a successful run started from freshly constructed counters,
every (doctor, month) counter is at most the doctor's monthly cap, unless a
forced-assignment (constraint-exhaustion) warning was recorded for a slot of
that month that the run assigned to that doctor. -/
theorem claim2_monthly_cap_invariant (doctors : List Doctor) (unavail : List (Nat × Nat))
    (prefs : List Pref) (start_date end_date spd g doc : Nat) (mk : Nat × Nat)
    (hok : (generate (mkScheduler doctors unavail prefs) start_date end_date spd g).isOk = true)
    (hnowarn : ¬ ∃ d sh,
      (d, sh) ∈ (genOut (generate (mkScheduler doctors unavail prefs)
          start_date end_date spd g)).warns ∧
      monthKey d = mk ∧
      (⟨d, sh, doc⟩ : Entry) ∈ (genOut (generate (mkScheduler doctors unavail prefs)
          start_date end_date spd g)).rows) :
    getCount (genOut (generate (mkScheduler doctors unavail prefs)
        start_date end_date spd g)).s.shift_counts (doc, mk)
      ≤ (mkScheduler doctors unavail prefs).monthly_limits doc := by
  by_cases hne : (mkScheduler doctors unavail prefs).doctor_ids = []
  · rw [generate, if_pos hne] at hok
    simp [Except.isOk, Except.toBool] at hok
  · have hgen : generate (mkScheduler doctors unavail prefs) start_date end_date spd g
        = .ok (genDays (mkScheduler doctors unavail prefs) g (SHIFT_TYPES spd) start_date
            (end_date + 1 - start_date)) := by
      simp [generate, hne]
    rw [hgen] at hnowarn ⊢
    simp only [genOut] at hnowarn ⊢
    have hinv := genDays_capInv (SHIFT_TYPES spd) (end_date + 1 - start_date)
      (mkScheduler doctors unavail prefs) g start_date [] []
      (mkScheduler_capInv doctors unavail prefs)
    simp only [List.nil_append] at hinv
    rcases hinv doc mk with hle | hex
    · rwa [genDays_limits] at hle
    · exact absurd hex hnowarn

/-- Witness for C2 at a concrete run: one doctor with cap 10, three days,
no absences — no warnings, and the January year-1 counter stays below cap. -/
theorem claim2_witness :
    ((generate (mkScheduler [⟨1, "Ana", 10⟩] [] []) 3 5 1 0).isOk = true ∧
      ¬ ∃ d sh,
        (d, sh) ∈ (genOut (generate (mkScheduler [⟨1, "Ana", 10⟩] [] []) 3 5 1 0)).warns ∧
        monthKey d = (1, 1) ∧
        (⟨d, sh, 1⟩ : Entry) ∈ (genOut (generate (mkScheduler [⟨1, "Ana", 10⟩] [] []) 3 5 1 0)).rows) ∧
    getCount (genOut (generate (mkScheduler [⟨1, "Ana", 10⟩] [] []) 3 5 1 0)).s.shift_counts (1, (1, 1))
      ≤ (mkScheduler [⟨1, "Ana", 10⟩] [] []).monthly_limits 1 := by
  have hok : (generate (mkScheduler [⟨1, "Ana", 10⟩] [] []) 3 5 1 0).isOk = true := by
    with_unfolding_all decide
  have hwarns : (genOut (generate (mkScheduler [⟨1, "Ana", 10⟩] [] []) 3 5 1 0)).warns = [] := by
    with_unfolding_all decide
  have hnowarn : ¬ ∃ d sh,
      (d, sh) ∈ (genOut (generate (mkScheduler [⟨1, "Ana", 10⟩] [] []) 3 5 1 0)).warns ∧
      monthKey d = (1, 1) ∧
      (⟨d, sh, 1⟩ : Entry) ∈ (genOut (generate (mkScheduler [⟨1, "Ana", 10⟩] [] []) 3 5 1 0)).rows := by
    rintro ⟨d, sh, hw, -, -⟩
    rw [hwarns] at hw
    exact List.not_mem_nil _ hw
  exact ⟨⟨hok, hnowarn⟩,
    claim2_monthly_cap_invariant [⟨1, "Ana", 10⟩] [] [] 3 5 1 0 1 (1, 1) hok hnowarn⟩

/-! ### The per-assignment counter updates -/

theorem updState_facts (s : Scheduler) (sel date : Nat) :
    getCount (updState s sel date).shift_counts (sel, monthKey date)
      = getCount s.shift_counts (sel, monthKey date) + 1 ∧
    (∀ k, k ≠ (sel, monthKey date) →
      getCount (updState s sel date).shift_counts k = getCount s.shift_counts k) ∧
    (updState s sel date).last_shift_date sel = date ∧
    (∀ d0, d0 ≠ sel → (updState s sel date).last_shift_date d0 = s.last_shift_date d0) ∧
    (updState s sel date).weekend_counts sel
      = s.weekend_counts sel + (if 5 ≤ wd date then 1 else 0) ∧
    (∀ d0, d0 ≠ sel → (updState s sel date).weekend_counts d0 = s.weekend_counts d0) := by
  refine ⟨?_, ?_, ?_, ?_, ?_, ?_⟩
  · show getCount (bump s.shift_counts (sel, monthKey date)) _ = _
    rw [getCount_bump, if_pos rfl]
  · intro k hk
    show getCount (bump s.shift_counts (sel, monthKey date)) k = _
    rw [getCount_bump, if_neg hk]
  · show (if sel = sel then date else s.last_shift_date sel) = date
    rw [if_pos rfl]
  · intro d0 h
    show (if d0 = sel then date else s.last_shift_date d0) = _
    rw [if_neg h]
  · show (if sel = sel ∧ 5 ≤ wd date then s.weekend_counts sel + 1 else s.weekend_counts sel) = _
    by_cases hw : 5 ≤ wd date <;> simp [hw]
  · intro d0 h
    show (if d0 = sel ∧ 5 ≤ wd date then s.weekend_counts d0 + 1 else s.weekend_counts d0) = _
    simp [h]

/-- C10: every assignment — score-chosen or forced — emits one entry whose
doctor comes from the input roster, and performs exactly the same state
updates: that doctor's counter for the date's (year, month) grows by exactly
1 (all other counters untouched), their last-assigned date becomes the
slot's date (other doctors untouched), and their weekend counter grows by 1
exactly when the date is a Saturday or Sunday (other doctors untouched). -/
theorem claim10_assignment_updates (s : Scheduler) (g date : Nat) (sh : String)
    (hne : s.doctor_ids ≠ []) :
    (processSlot s g date sh).rows.length = 1 ∧
    ∀ e ∈ (processSlot s g date sh).rows,
      e.date = date ∧ e.shift = sh ∧ e.doc ∈ s.doctor_ids ∧
      getCount (processSlot s g date sh).s.shift_counts (e.doc, monthKey date)
        = getCount s.shift_counts (e.doc, monthKey date) + 1 ∧
      (∀ k : Nat × (Nat × Nat), k ≠ (e.doc, monthKey date) →
        getCount (processSlot s g date sh).s.shift_counts k = getCount s.shift_counts k) ∧
      (processSlot s g date sh).s.last_shift_date e.doc = date ∧
      (∀ d0, d0 ≠ e.doc → (processSlot s g date sh).s.last_shift_date d0 = s.last_shift_date d0) ∧
      (processSlot s g date sh).s.weekend_counts e.doc
        = s.weekend_counts e.doc + (if 5 ≤ wd date then 1 else 0) ∧
      (∀ d0, d0 ≠ e.doc → (processSlot s g date sh).s.weekend_counts d0 = s.weekend_counts d0) := by
  cases hc : (scoresFor s s.doctor_ids date sh g).1.filter (fun p => (-100 : ℚ) < p.2) with
  | nil =>
    rw [processSlot_forced s g date sh hc]
    refine ⟨rfl, ?_⟩
    intro e he
    have he' : e = ⟨date, sh, s.doctor_ids.getD
        (lcg (scoresFor s s.doctor_ids date sh g).2 % s.doctor_ids.length) 0⟩ := by
      simpa using he
    subst he'
    have hmem : s.doctor_ids.getD
        (lcg (scoresFor s s.doctor_ids date sh g).2 % s.doctor_ids.length) 0 ∈ s.doctor_ids := by
      apply getD_mem
      exact Nat.mod_lt _ (List.length_pos.mpr hne)
    obtain ⟨u1, u2, u3, u4, u5, u6⟩ := updState_facts s _ date
    exact ⟨rfl, rfl, hmem, u1, u2, u3, u4, u5, u6⟩
  | cons a rest =>
    rw [processSlot_normal s g date sh a rest hc]
    refine ⟨rfl, ?_⟩
    intro e he
    have he' : e = ⟨date, sh, (pickBest a rest).1⟩ := by simpa using he
    subst he'
    obtain ⟨u1, u2, u3, u4, u5, u6⟩ := updState_facts s _ date
    exact ⟨rfl, rfl, (selected_ok s g date sh a rest hc).1, u1, u2, u3, u4, u5, u6⟩

/-- Witness for C10 at a concrete slot. -/
theorem claim10_witness :
    (mkScheduler [⟨1, "Ana", 10⟩] [] []).doctor_ids ≠ [] ∧
    getCount (processSlot (mkScheduler [⟨1, "Ana", 10⟩] [] []) 0 5 "Gardă 24h").s.shift_counts
        (1, monthKey 5)
      = getCount (mkScheduler [⟨1, "Ana", 10⟩] [] []).shift_counts (1, monthKey 5) + 1 ∧
    (processSlot (mkScheduler [⟨1, "Ana", 10⟩] [] []) 0 5 "Gardă 24h").s.last_shift_date 1 = 5 := by
  have h := claim10_assignment_updates (mkScheduler [⟨1, "Ana", 10⟩] [] []) 0 5 "Gardă 24h"
    (by decide)
  have hm : (⟨5, "Gardă 24h", 1⟩ : Entry)
      ∈ (processSlot (mkScheduler [⟨1, "Ana", 10⟩] [] []) 0 5 "Gardă 24h").rows := by
    with_unfolding_all decide
  obtain ⟨-, h2⟩ := h
  obtain ⟨-, -, -, hcnt, -, hlast, -, -, -⟩ := h2 _ hm
  exact ⟨by decide, hcnt, hlast⟩

/-! ### Forced-assignment behaviour and the score formula -/

/-- C5 counterexample: a date whose two slots are both fully blocked gets
TWO warnings — one per slot — not the single warning per affected date the
claim asserts (the sole doctor is absent on date 6; template has two
labels). -/
theorem claim5_counterexample :
    ((genOut (generate (mkScheduler [⟨1, "Ana", 10⟩] [(1, 6)] []) 6 6 2 0)).warns.filter
        (fun w => w.1 == 6)).length = 2 ∧
    ¬ ((genOut (generate (mkScheduler [⟨1, "Ana", 10⟩] [(1, 6)] []) 6 6 2 0)).warns.filter
        (fun w => w.1 == 6)).length = 1 := by
  constructor <;> with_unfolding_all decide

/-- C5 (amended): when a slot has zero available candidates, the engine
emits exactly one warning for that slot (so a fully blocked date gets one
warning per shift label), and assigns the roster member indexed by the next
random draw — `random.choice`, not a rotating pointer — regardless of
cap or absence. -/
theorem claim5_forced_slot_behavior (s : Scheduler) (g date : Nat) (sh : String)
    (hempty : (scoresFor s s.doctor_ids date sh g).1.filter (fun p => (-100 : ℚ) < p.2) = []) :
    (processSlot s g date sh).warns = [(date, sh)] ∧
    (processSlot s g date sh).rows
      = [⟨date, sh, s.doctor_ids.getD
          (lcg (scoresFor s s.doctor_ids date sh g).2 % s.doctor_ids.length) 0⟩] := by
  rw [processSlot_forced s g date sh hempty]
  exact ⟨rfl, rfl⟩

/-- Witness for the amended C5 at a concrete fully-blocked slot. -/
theorem claim5_witness :
    (scoresFor (mkScheduler [⟨1, "Ana", 10⟩] [(1, 6)] [])
        (mkScheduler [⟨1, "Ana", 10⟩] [(1, 6)] []).doctor_ids 6 "Gardă Zi 12h (08-20)" 0).1.filter
        (fun p => (-100 : ℚ) < p.2) = [] ∧
    ((processSlot (mkScheduler [⟨1, "Ana", 10⟩] [(1, 6)] []) 0 6 "Gardă Zi 12h (08-20)").warns
        = [(6, "Gardă Zi 12h (08-20)")] ∧
      (processSlot (mkScheduler [⟨1, "Ana", 10⟩] [(1, 6)] []) 0 6 "Gardă Zi 12h (08-20)").rows
        = [⟨6, "Gardă Zi 12h (08-20)",
            (mkScheduler [⟨1, "Ana", 10⟩] [(1, 6)] []).doctor_ids.getD
              (lcg (scoresFor (mkScheduler [⟨1, "Ana", 10⟩] [(1, 6)] [])
                  (mkScheduler [⟨1, "Ana", 10⟩] [(1, 6)] []).doctor_ids
                  6 "Gardă Zi 12h (08-20)" 0).2
                % (mkScheduler [⟨1, "Ana", 10⟩] [(1, 6)] []).doctor_ids.length) 0⟩]) := by
  have hempty : (scoresFor (mkScheduler [⟨1, "Ana", 10⟩] [(1, 6)] [])
      (mkScheduler [⟨1, "Ana", 10⟩] [(1, 6)] []).doctor_ids 6 "Gardă Zi 12h (08-20)" 0).1.filter
      (fun p => (-100 : ℚ) < p.2) = [] := by
    with_unfolding_all decide
  exact ⟨hempty,
    claim5_forced_slot_behavior (mkScheduler [⟨1, "Ana", 10⟩] [(1, 6)] []) 0 6
      "Gardă Zi 12h (08-20)" hempty⟩

theorem foldl_pref_bonus (l : List Pref) (q : Pref → Bool) (init : ℚ) :
    l.foldl (fun sc p => if q p then sc + 30 else sc) init
      = init + 30 * ((l.filter q).length : ℚ) := by
  induction l generalizing init with
  | nil => simp
  | cons p ps ih =>
    cases hq : q p
    · simp [List.foldl_cons, hq, ih, List.filter_cons]
    · simp [List.foldl_cons, hq, ih, List.filter_cons]
      ring

/-- The scorer's value on an eligible candidate, as a sum of the five
specified terms. -/
theorem score_formula (s : Scheduler) (doc date : Nat) (sh : String) (g : Nat)
    (h1 : (doc, date) ∉ s.unavail_set)
    (h2 : getCount s.shift_counts (doc, monthKey date) < s.monthly_limits doc) :
    (calculate_doctor_score s doc date sh g).1
      = 100 / ((totalShifts s.shift_counts doc : ℚ) + 1)
        + (if ((date : Int) - (s.last_shift_date doc : Int)) < 2 then -50
           else if 7 < ((date : Int) - (s.last_shift_date doc : Int)) then 20 else 0)
        + (if 5 ≤ wd date then -((s.weekend_counts doc : ℚ) * 10) else 0)
        + 30 * (((s.doc_preferences doc).filter
            (fun p => p.day == (wd date : Int) && substrOf p.shift sh)).length : ℚ)
        + jitterVal g := by
  simp only [calculate_doctor_score, if_neg h1, if_neg (not_le.mpr h2)]
  rw [foldl_pref_bonus]
  split_ifs <;> ring

/-- C6: for every eligible candidate (not absent, below the monthly cap),
the score equals the sum of the load-balance term `100/(total+1)`, the rest
term (−50 for a gap < 2 days, +20 for a gap > 7 days), the weekend term
(−10 × weekend count on Saturdays/Sundays), the preference bonus, and a
jitter term lying in [−5, +5]. -/
theorem claim6_score_formula (s : Scheduler) (doc date : Nat) (sh : String) (g : Nat)
    (h1 : (doc, date) ∉ s.unavail_set)
    (h2 : getCount s.shift_counts (doc, monthKey date) < s.monthly_limits doc) :
    (calculate_doctor_score s doc date sh g).1
      = 100 / ((totalShifts s.shift_counts doc : ℚ) + 1)
        + (if ((date : Int) - (s.last_shift_date doc : Int)) < 2 then -50
           else if 7 < ((date : Int) - (s.last_shift_date doc : Int)) then 20 else 0)
        + (if 5 ≤ wd date then -((s.weekend_counts doc : ℚ) * 10) else 0)
        + 30 * (((s.doc_preferences doc).filter
            (fun p => p.day == (wd date : Int) && substrOf p.shift sh)).length : ℚ)
        + jitterVal g
      ∧ -5 ≤ jitterVal g ∧ jitterVal g ≤ 5 :=
  ⟨score_formula s doc date sh g h1 h2, jitterVal_ge g, jitterVal_le g⟩

/-- Witness for C6 at a concrete eligible candidate. -/
theorem claim6_witness :
    ((1, 10) ∉ (mkScheduler [⟨1, "Ana", 10⟩] [] []).unavail_set ∧
      getCount (mkScheduler [⟨1, "Ana", 10⟩] [] []).shift_counts (1, monthKey 10)
        < (mkScheduler [⟨1, "Ana", 10⟩] [] []).monthly_limits 1) ∧
    ((calculate_doctor_score (mkScheduler [⟨1, "Ana", 10⟩] [] []) 1 10 "Gardă 24h" 0).1
      = 100 / ((totalShifts (mkScheduler [⟨1, "Ana", 10⟩] [] []).shift_counts 1 : ℚ) + 1)
        + (if ((10 : Int) - ((mkScheduler [⟨1, "Ana", 10⟩] [] []).last_shift_date 1 : Int)) < 2
            then -50
           else if 7 < ((10 : Int) - ((mkScheduler [⟨1, "Ana", 10⟩] [] []).last_shift_date 1 : Int))
            then 20 else 0)
        + (if 5 ≤ wd 10
            then -(((mkScheduler [⟨1, "Ana", 10⟩] [] []).weekend_counts 1 : ℚ) * 10) else 0)
        + 30 * ((((mkScheduler [⟨1, "Ana", 10⟩] [] []).doc_preferences 1).filter
            (fun p => p.day == (wd 10 : Int) && substrOf p.shift "Gardă 24h")).length : ℚ)
        + jitterVal 0
      ∧ -5 ≤ jitterVal 0 ∧ jitterVal 0 ≤ 5) :=
  ⟨⟨by decide, by decide⟩,
    claim6_score_formula (mkScheduler [⟨1, "Ana", 10⟩] [] []) 1 10 "Gardă 24h" 0
      (by decide) (by decide)⟩

/-! ### The wildcard preference and the availability filter -/

/-- Scheduler with one doctor holding a wildcard ("Orice" = any) preference
for Mondays. -/
def s7 : Scheduler := mkScheduler [⟨1, "Ana", 10⟩] [] [⟨1, 0, "Orice"⟩]

/-- C7: the scorer matches a preference with the Python substring test
`pref['shift'] in shift_name`; the wildcard "Orice"/"any" is not
special-cased and is not a substring of any shift label, so a wildcard
preference on a matching weekday earns NO bonus.  Ordinal 8 is a Monday
(weekday 0), doctor 1 holds the wildcard preference for weekday 0, yet the
score is `100 + jitter` — the load term plus jitter only, without the +30
the claim promises. -/
theorem claim7_wildcard_preference_ignored :
    s7.doc_preferences 1 = [⟨1, 0, "Orice"⟩] ∧ wd 8 = 0 ∧
    substrOf "Orice" "Gardă 24h" = false ∧
    ∀ g : Nat, (calculate_doctor_score s7 1 8 "Gardă 24h" g).1 = 100 + jitterVal g := by
  refine ⟨by decide, by decide, by decide, ?_⟩
  intro g
  rw [score_formula s7 1 8 "Gardă 24h" g (by decide) (by decide)]
  have ht : totalShifts s7.shift_counts 1 = 0 := by decide
  have hl : s7.last_shift_date 1 = 1 := by decide
  have hw : wd 8 = 0 := by decide
  have hfil : (s7.doc_preferences 1).filter
      (fun p => p.day == (wd 8 : Int) && substrOf p.shift "Gardă 24h") = [] := by decide
  rw [ht, hl, hfil, hw]
  norm_num

/-- Scheduler state after a plausible history: doctor 2 (cap 10) has 20
total shifts (9 + 9 + 2 across three months), all 20 on weekends, last
assigned ordinal 59; the current month (year 1, March) holds only 2. -/
def s4 : Scheduler :=
  { mkScheduler [⟨1, "Ana", 10⟩, ⟨2, "Bogdan", 10⟩] [] [] with
    shift_counts := [((2, (1, 1)), 9), ((2, (1, 2)), 9), ((2, (1, 3)), 2)]
    last_shift_date := fun d => if d = 2 then 59 else 1
    weekend_counts := fun d => if d = 2 then 20 else 0 }

/-- C4: doctor 2 is eligible for the Saturday slot at ordinal 62 (not
absent, 2 < 10 in the current month), yet the accumulated weekend penalty
(−10 × 20) drives the score below the −100 availability threshold for every
jitter value, so `generate`'s filter `score > -100` drops this eligible
candidate from the pool — here the pool retains only doctor 1. -/
theorem claim4_eligible_candidate_excluded :
    ((2, 62) ∉ s4.unavail_set ∧
      getCount s4.shift_counts (2, monthKey 62) < s4.monthly_limits 2) ∧
    (∀ g : Nat, (calculate_doctor_score s4 2 62 "Gardă 24h" g).1 ≤ -100) ∧
    ((scoresFor s4 s4.doctor_ids 62 "Gardă 24h" 0).1.filter
        (fun p => (-100 : ℚ) < p.2)).map Prod.fst = [1] := by
  refine ⟨⟨by decide, by decide⟩, ?_, by with_unfolding_all decide⟩
  intro g
  rw [score_formula s4 2 62 "Gardă 24h" g (by decide) (by decide)]
  have ht : totalShifts s4.shift_counts 2 = 20 := by decide
  have hl : s4.last_shift_date 2 = 59 := by decide
  have hwk : s4.weekend_counts 2 = 20 := by decide
  have hfil : (s4.doc_preferences 2).filter
      (fun p => p.day == (wd 62 : Int) && substrOf p.shift "Gardă 24h") = [] := by decide
  have hwd : wd 62 = 5 := by decide
  have hj := jitterVal_le g
  rw [ht, hl, hwk, hfil, hwd]
  norm_num
  linarith

/-! ### Determinism -/

/-- Replace only the display-name map (which `generate` never reads). -/
def setNames (s : Scheduler) (f : Nat → String) : Scheduler := { s with id_to_name := f }

theorem calc_setNames (s : Scheduler) (f : Nat → String) (doc date : Nat) (sh : String)
    (g : Nat) :
    calculate_doctor_score (setNames s f) doc date sh g
      = calculate_doctor_score s doc date sh g := rfl

theorem scoresFor_setNames (s : Scheduler) (f : Nat → String) (ids : List Nat) (date : Nat)
    (sh : String) : ∀ g, scoresFor (setNames s f) ids date sh g = scoresFor s ids date sh g := by
  induction ids with
  | nil => intro g; rfl
  | cons d rest ih =>
    intro g
    simp only [scoresFor, calc_setNames, ih]

theorem processSlot_setNames (s : Scheduler) (f : Nat → String) (g date : Nat) (sh : String) :
    processSlot (setNames s f) g date sh
      = ⟨setNames (processSlot s g date sh).s f, (processSlot s g date sh).g,
          (processSlot s g date sh).rows, (processSlot s g date sh).warns⟩ := by
  have hids : (setNames s f).doctor_ids = s.doctor_ids := rfl
  cases hc : (scoresFor s s.doctor_ids date sh g).1.filter (fun p => (-100 : ℚ) < p.2) with
  | nil =>
    have hc' : (scoresFor (setNames s f) (setNames s f).doctor_ids date sh g).1.filter
        (fun p => (-100 : ℚ) < p.2) = [] := by
      rw [hids, scoresFor_setNames]
      exact hc
    rw [processSlot_forced _ _ _ _ hc', processSlot_forced _ _ _ _ hc, hids,
      scoresFor_setNames]
    rfl
  | cons a rest =>
    have hc' : (scoresFor (setNames s f) (setNames s f).doctor_ids date sh g).1.filter
        (fun p => (-100 : ℚ) < p.2) = a :: rest := by
      rw [hids, scoresFor_setNames]
      exact hc
    rw [processSlot_normal _ _ _ _ _ _ hc', processSlot_normal _ _ _ _ _ _ hc, hids,
      scoresFor_setNames]
    rfl

theorem processDay_setNames (f : Nat → String) (shifts : List String) :
    ∀ (s : Scheduler) (g d : Nat),
    processDay (setNames s f) g shifts d
      = ⟨setNames (processDay s g shifts d).s f, (processDay s g shifts d).g,
          (processDay s g shifts d).rows, (processDay s g shifts d).warns⟩ := by
  induction shifts with
  | nil => intro s g d; rfl
  | cons sh rest ih =>
    intro s g d
    simp only [processDay]
    rw [processSlot_setNames]
    dsimp only
    rw [ih]

theorem genDays_setNames (f : Nat → String) (shifts : List String) (fuel : Nat) :
    ∀ (s : Scheduler) (g c : Nat),
    genDays (setNames s f) g shifts c fuel
      = ⟨setNames (genDays s g shifts c fuel).s f, (genDays s g shifts c fuel).g,
          (genDays s g shifts c fuel).rows, (genDays s g shifts c fuel).warns⟩ := by
  induction fuel with
  | zero => intro s g c; rfl
  | succ n ih =>
    intro s g c
    simp only [genDays]
    rw [processDay_setNames]
    dsimp only
    rw [ih]

/-- C8: the schedule and the warnings are a function of the roster ids, the
caps, the absences, the preferences, the counters and the random seed alone
— two scheduler states that agree on those (they may differ in the unused
display-name map) produce identical output for identical date ranges,
templates and seeds.  In particular two runs with identical inputs and the
same seed coincide. -/
theorem claim8_determinism (s1 s2 : Scheduler)
    (h1 : s1.doctor_ids = s2.doctor_ids)
    (h2 : s1.monthly_limits = s2.monthly_limits)
    (h3 : s1.unavail_set = s2.unavail_set)
    (h4 : s1.doc_preferences = s2.doc_preferences)
    (h5 : s1.shift_counts = s2.shift_counts)
    (h6 : s1.last_shift_date = s2.last_shift_date)
    (h7 : s1.weekend_counts = s2.weekend_counts)
    (start_date end_date spd g : Nat) :
    (generate s1 start_date end_date spd g).isOk
      = (generate s2 start_date end_date spd g).isOk ∧
    (genOut (generate s1 start_date end_date spd g)).rows
      = (genOut (generate s2 start_date end_date spd g)).rows ∧
    (genOut (generate s1 start_date end_date spd g)).warns
      = (genOut (generate s2 start_date end_date spd g)).warns := by
  have hs : s1 = setNames s2 s1.id_to_name := by
    obtain ⟨i1, n1, m1, u1, p1, c1, l1, w1⟩ := s1
    obtain ⟨i2, n2, m2, u2, p2, c2, l2, w2⟩ := s2
    simp only at h1 h2 h3 h4 h5 h6 h7 ⊢
    simp [setNames, Scheduler.mk.injEq, h1, h2, h3, h4, h5, h6, h7]
  rw [hs]
  by_cases hne : s2.doctor_ids = []
  · have hids : (setNames s2 s1.id_to_name).doctor_ids = s2.doctor_ids := rfl
    simp only [generate, hids, if_pos hne]
    exact ⟨by trivial, by trivial, by trivial⟩
  · have hids : (setNames s2 s1.id_to_name).doctor_ids = s2.doctor_ids := rfl
    simp only [generate, hids, if_neg hne]
    rw [genDays_setNames]
    exact ⟨by trivial, by trivial, by trivial⟩

/-- Witness for C8: two concrete states differing only in the name map. -/
theorem claim8_witness :
    (generate (mkScheduler [⟨1, "Ana", 10⟩] [] []) 3 4 1 7).isOk
        = (generate (setNames (mkScheduler [⟨1, "Ana", 10⟩] [] []) (fun _ => "B")) 3 4 1 7).isOk ∧
    (genOut (generate (mkScheduler [⟨1, "Ana", 10⟩] [] []) 3 4 1 7)).rows
        = (genOut (generate (setNames (mkScheduler [⟨1, "Ana", 10⟩] [] [])
            (fun _ => "B")) 3 4 1 7)).rows ∧
    (genOut (generate (mkScheduler [⟨1, "Ana", 10⟩] [] []) 3 4 1 7)).warns
        = (genOut (generate (setNames (mkScheduler [⟨1, "Ana", 10⟩] [] [])
            (fun _ => "B")) 3 4 1 7)).warns :=
  claim8_determinism (mkScheduler [⟨1, "Ana", 10⟩] [] [])
    (setNames (mkScheduler [⟨1, "Ana", 10⟩] [] []) (fun _ => "B"))
    rfl rfl rfl rfl rfl rfl rfl 3 4 1 7

/-! ### The Reservation Resolver (pre-claim variant) -/

/-- Status of a reservation claim. -/
inductive ClaimStatus
  | pending
  | approved
  | rejected
deriving DecidableEq, Repr

/-- Month key following `mk`. -/
def nextMonth : Nat × Nat → Nat × Nat
  | (y, m) => if m = 12 then (y + 1, 1) else (y, m + 1)

/-- Maximum of a list of naturals (0 on the empty list). -/
def listMax : List Nat → Nat
  | [] => 0
  | x :: xs => max x (listMax xs)

theorem le_listMax (l : List Nat) (x : Nat) (h : x ∈ l) : x ≤ listMax l := by
  induction l with
  | nil => simp at h
  | cons y ys ih =>
    rcases List.mem_cons.mp h with h' | h'
    · subst h'
      exact le_max_left _ _
    · exact le_trans (ih h') (le_max_right _ _)

theorem listMax_mem (l : List Nat) (h : l ≠ []) : listMax l ∈ l := by
  induction l with
  | nil => exact absurd rfl h
  | cons y ys ih =>
    cases hys : ys with
    | nil =>
      subst hys
      simp [listMax]
    | cons z zs =>
      rw [← hys]
      have hne : ys ≠ [] := by simp [hys]
      rcases le_total (listMax ys) y with hle | hle
      · simp only [listMax, max_eq_left hle]
        exact List.mem_cons_self _ _
      · simp only [listMax, max_eq_right hle]
        exact List.mem_cons_of_mem _ (ih hne)

/-- Modelled from the spec: the tie-break pick of the Reservation Resolver
(§4.4), which is absent from the source file under verification.  Among the
claimants of one slot, those whose current-month PriorityLedger score
(default 0) is maximal are retained, and the winner is drawn uniformly at
random among them (modelled by the next generator draw indexing the tied
list). -/
def winnerOf (claims : List Nat) (mk : Nat × Nat)
    (ledger : List ((Nat × (Nat × Nat)) × Nat)) (g : Nat) : Nat :=
  let best := listMax (claims.map (fun c => getCount ledger (c, mk)))
  let tied := claims.filter (fun c => getCount ledger (c, mk) == best)
  tied.getD (lcg g % tied.length) 0

/-- Modelled from the spec: the Reservation Resolver transition for one slot
(§4.4), absent from the source file under verification.  No claim: nothing
happens.  One claim: approved unconditionally.  Several claims: the
maximal-priority (randomly tie-broken) claimant is approved, every other
claim is rejected, and each rejected claimant's PriorityLedger score for the
*next* month is incremented by 1.  Scores are never decremented. -/
def resolveSlot (claims : List Nat) (mk : Nat × Nat)
    (ledger : List ((Nat × (Nat × Nat)) × Nat)) (g : Nat) :
    List (Nat × ClaimStatus) × List ((Nat × (Nat × Nat)) × Nat) × Nat :=
  match claims with
  | [] => ([], ledger, g)
  | [c] => ([(c, ClaimStatus.approved)], ledger, g)
  | c1 :: c2 :: rest =>
    let winner := winnerOf (c1 :: c2 :: rest) mk ledger g
    ((c1 :: c2 :: rest).map
        (fun c => (c, if c = winner then ClaimStatus.approved else ClaimStatus.rejected)),
      ((c1 :: c2 :: rest).filter (fun c => c != winner)).foldl
        (fun L c => bump L (c, nextMonth mk)) ledger,
      lcg g)

theorem getCount_foldl_bump_mono (cs : List Nat) (mk' : Nat × Nat) :
    ∀ (L : List ((Nat × (Nat × Nat)) × Nat)) (k : Nat × (Nat × Nat)),
    getCount L k ≤ getCount (cs.foldl (fun L c => bump L (c, mk')) L) k := by
  induction cs with
  | nil => intro L k; exact le_refl _
  | cons c rest ih =>
    intro L k
    refine le_trans ?_ (ih (bump L (c, mk')) k)
    rw [getCount_bump]
    split_ifs with h
    · rw [h]
      omega
    · exact le_refl _

theorem getCount_foldl_bump_of_not_mem (cs : List Nat) (mk' : Nat × Nat) (x : Nat)
    (hx : x ∉ cs) :
    ∀ L, getCount (cs.foldl (fun L c => bump L (c, mk')) L) (x, mk') = getCount L (x, mk') := by
  induction cs with
  | nil => intro L; rfl
  | cons c rest ih =>
    intro L
    have hxc : x ≠ c := fun h => hx (h ▸ List.mem_cons_self _ _)
    have hxr : x ∉ rest := fun h => hx (List.mem_cons_of_mem _ h)
    show getCount (rest.foldl (fun L c => bump L (c, mk')) (bump L (c, mk'))) (x, mk') = _
    rw [ih hxr, getCount_bump, if_neg (by simp [hxc])]

theorem getCount_foldl_bump_of_mem (cs : List Nat) (mk' : Nat × Nat) (x : Nat)
    (hnd : cs.Nodup) (hx : x ∈ cs) :
    ∀ L, getCount (cs.foldl (fun L c => bump L (c, mk')) L) (x, mk')
      = getCount L (x, mk') + 1 := by
  induction cs with
  | nil => simp at hx
  | cons c rest ih =>
    intro L
    show getCount (rest.foldl (fun L c => bump L (c, mk')) (bump L (c, mk'))) (x, mk') = _
    rcases List.mem_cons.mp hx with h' | h'
    · subst h'
      have hxr : x ∉ rest := (List.nodup_cons.mp hnd).1
      rw [getCount_foldl_bump_of_not_mem rest mk' x hxr, getCount_bump, if_pos rfl]
    · have hxc : x ≠ c := by
        rintro rfl
        exact (List.nodup_cons.mp hnd).1 h'
      rw [ih (List.nodup_cons.mp hnd).2 h', getCount_bump, if_neg (by simp [hxc])]

theorem winnerOf_spec (claims : List Nat) (mk : Nat × Nat)
    (ledger : List ((Nat × (Nat × Nat)) × Nat)) (g : Nat) (hne : claims ≠ []) :
    winnerOf claims mk ledger g ∈ claims ∧
    ∀ c ∈ claims, getCount ledger (c, mk)
      ≤ getCount ledger (winnerOf claims mk ledger g, mk) := by
  have hmapne : claims.map (fun c => getCount ledger (c, mk)) ≠ [] := by
    simpa using hne
  have hmax_mem := listMax_mem _ hmapne
  obtain ⟨c0, hc0, hc0eq⟩ := List.mem_map.mp hmax_mem
  have hc0f : c0 ∈ claims.filter (fun c => getCount ledger (c, mk)
      == listMax (claims.map (fun c => getCount ledger (c, mk)))) :=
    List.mem_filter.mpr ⟨hc0, by simp [hc0eq]⟩
  have htied_ne : claims.filter (fun c => getCount ledger (c, mk)
      == listMax (claims.map (fun c => getCount ledger (c, mk)))) ≠ [] := by
    intro hemp
    rw [hemp] at hc0f
    exact List.not_mem_nil _ hc0f
  have hidx : lcg g % (claims.filter (fun c => getCount ledger (c, mk)
        == listMax (claims.map (fun c => getCount ledger (c, mk))))).length
      < (claims.filter (fun c => getCount ledger (c, mk)
        == listMax (claims.map (fun c => getCount ledger (c, mk))))).length :=
    Nat.mod_lt _ (List.length_pos.mpr htied_ne)
  have hwin : winnerOf claims mk ledger g ∈ claims.filter (fun c => getCount ledger (c, mk)
      == listMax (claims.map (fun c => getCount ledger (c, mk)))) :=
    getD_mem _ _ _ hidx
  have hwf := List.mem_filter.mp hwin
  refine ⟨hwf.1, ?_⟩
  intro c hc
  have hcle : getCount ledger (c, mk)
      ≤ listMax (claims.map (fun c => getCount ledger (c, mk))) :=
    le_listMax _ _ (List.mem_map.mpr ⟨c, hc, rfl⟩)
  have hweq : getCount ledger (winnerOf claims mk ledger g, mk)
      = listMax (claims.map (fun c => getCount ledger (c, mk))) := by
    simpa using hwf.2
  rw [hweq]
  exact hcle

theorem statuses_filter_length (claims : List Nat) (w : Nat) :
    ((claims.map
        (fun c => (c, if c = w then ClaimStatus.approved else ClaimStatus.rejected))).filter
        (fun p => p.2 == ClaimStatus.approved)).length
      = (claims.filter (fun c => c == w)).length := by
  induction claims with
  | nil => rfl
  | cons c rest ih =>
    by_cases h : c = w <;> simp [List.map_cons, List.filter_cons, h, ih]

/-- C9 (spec-modelled): on a slot with more than one pending claim and
distinct claimants, the Reservation Resolver approves exactly one claim —
a claimant whose current-month ledger score is maximal, drawn by the random
index among the tied maximal claimants — marks every other claim rejected,
increments each rejected claimant's next-month ledger score by exactly 1,
and never decrements any ledger score. -/
theorem claim9_reservation_resolution (claims : List Nat) (mk : Nat × Nat)
    (ledger : List ((Nat × (Nat × Nat)) × Nat)) (g : Nat)
    (hlen : 2 ≤ claims.length) (hnd : claims.Nodup) :
    winnerOf claims mk ledger g ∈ claims ∧
    (∀ c ∈ claims, getCount ledger (c, mk)
        ≤ getCount ledger (winnerOf claims mk ledger g, mk)) ∧
    (resolveSlot claims mk ledger g).1
      = claims.map (fun c => (c, if c = winnerOf claims mk ledger g
          then ClaimStatus.approved else ClaimStatus.rejected)) ∧
    ((resolveSlot claims mk ledger g).1.filter
        (fun p => p.2 == ClaimStatus.approved)).length = 1 ∧
    (∀ c ∈ claims, c ≠ winnerOf claims mk ledger g →
      getCount (resolveSlot claims mk ledger g).2.1 (c, nextMonth mk)
        = getCount ledger (c, nextMonth mk) + 1) ∧
    (∀ k, getCount ledger k ≤ getCount (resolveSlot claims mk ledger g).2.1 k) := by
  obtain ⟨c1, claims', rfl⟩ : ∃ c1 t, claims = c1 :: t := by
    cases claims with
    | nil => simp at hlen
    | cons a t => exact ⟨a, t, rfl⟩
  obtain ⟨c2, rest, rfl⟩ : ∃ c2 r, claims' = c2 :: r := by
    cases claims' with
    | nil => simp at hlen
    | cons a t => exact ⟨a, t, rfl⟩
  have hne : (c1 :: c2 :: rest) ≠ [] := by simp
  obtain ⟨hw1, hw2⟩ := winnerOf_spec (c1 :: c2 :: rest) mk ledger g hne
  have hst : (resolveSlot (c1 :: c2 :: rest) mk ledger g).1
      = (c1 :: c2 :: rest).map (fun c => (c, if c = winnerOf (c1 :: c2 :: rest) mk ledger g
          then ClaimStatus.approved else ClaimStatus.rejected)) := rfl
  have hld : (resolveSlot (c1 :: c2 :: rest) mk ledger g).2.1
      = ((c1 :: c2 :: rest).filter
          (fun c => c != winnerOf (c1 :: c2 :: rest) mk ledger g)).foldl
          (fun L c => bump L (c, nextMonth mk)) ledger := rfl
  refine ⟨hw1, hw2, hst, ?_, ?_, ?_⟩
  · rw [hst, statuses_filter_length]
    calc ((c1 :: c2 :: rest).filter
          (fun c => c == winnerOf (c1 :: c2 :: rest) mk ledger g)).length
        = (c1 :: c2 :: rest).countP
            (fun c => c == winnerOf (c1 :: c2 :: rest) mk ledger g) :=
          (List.countP_eq_length_filter _ _).symm
      _ = (c1 :: c2 :: rest).count (winnerOf (c1 :: c2 :: rest) mk ledger g) := rfl
      _ = 1 := List.count_eq_one_of_mem hnd hw1
  · intro c hc hcw
    rw [hld]
    have hmem : c ∈ (c1 :: c2 :: rest).filter
        (fun c => c != winnerOf (c1 :: c2 :: rest) mk ledger g) :=
      List.mem_filter.mpr ⟨hc, by simp [hcw]⟩
    have hndf : ((c1 :: c2 :: rest).filter
        (fun c => c != winnerOf (c1 :: c2 :: rest) mk ledger g)).Nodup :=
      hnd.filter _
    exact getCount_foldl_bump_of_mem _ _ _ hndf hmem ledger
  · intro k
    rw [hld]
    exact getCount_foldl_bump_mono _ _ ledger k

/-- Witness for C9: Scenario C — staff 1 (priority 0) and staff 2
(priority 3) contest one slot in month (2025, 6); staff 2 wins, staff 1's
(2025, 7) priority becomes 1. -/
theorem claim9_witness :
    (2 ≤ ([1, 2] : List Nat).length ∧ ([1, 2] : List Nat).Nodup) ∧
    winnerOf [1, 2] (2025, 6) [((2, (2025, 6)), 3)] 0 = 2 ∧
    getCount (resolveSlot [1, 2] (2025, 6) [((2, (2025, 6)), 3)] 0).2.1
      (1, nextMonth (2025, 6)) = 1 ∧
    winnerOf [1, 2] (2025, 6) [((2, (2025, 6)), 3)] 0 ∈ ([1, 2] : List Nat) ∧
    ((resolveSlot [1, 2] (2025, 6) [((2, (2025, 6)), 3)] 0).1.filter
        (fun p => p.2 == ClaimStatus.approved)).length = 1 := by
  have h := claim9_reservation_resolution [1, 2] (2025, 6) [((2, (2025, 6)), 3)] 0
    (by decide) (by decide)
  have h5 := h.2.2.2.2.1 1 (by decide) (by decide)
  refine ⟨⟨by decide, by decide⟩, by decide, ?_, h.1, h.2.2.2.1⟩
  rw [h5]
  decide
